import Mathlib

/-!
Shallow embedding of the gunk channel registry, ingest authenticator,
OAuth callback token exchange, identity read / logout, and liveness
directory ordering, together with theorems checking the specification
claims against the embedded code.

Bytes are modelled as `List Nat`, strings as Lean `String` (Go `[]byte(s)`
conversion is modelled by `String.data`, which is equality-preserving).
The database is modelled as lists of rows; the only modelled store
failure is the no-rows condition (`pgx.ErrNoRows`), since the claims
concern lookup misses, not connection failures.
-/

deriving instance DecidableEq for Except

namespace Gunk

/-- One row of the `channel_defs` table: user_id, name (unique), key
(the shared secret), optional ftl_id, and the per-channel announce flag. -/
structure ChannelDefRow where
  user_id : String
  name : String
  key : String
  ftl_id : Option String
  announce : Bool
deriving DecidableEq, Repr

/-- One row of the `users` table: user_id and the per-owner announce flag. -/
structure UserRow where
  user_id : String
  announce : Bool
deriving DecidableEq, Repr

/-- One row of the `thumbs` table: channel name (unique), thumbnail bytes,
and the `updated` timestamp (seconds). -/
structure ThumbRow where
  name : String
  thumb : List Nat
  updated : Nat
deriving DecidableEq, Repr

/-- The database state: the three tables used by the embedded code. -/
structure DB where
  channel_defs : List ChannelDefRow
  users : List UserRow
  thumbs : List ThumbRow
deriving DecidableEq, Repr

/-- Go struct `channelAuth`: the transient channel authorization returned
by a successful ingest authentication. -/
structure channelAuth where
  UserID : String
  Name : String
  Announce : Bool
deriving DecidableEq, Repr

/-- The single ingest authentication error value `ErrUserNotFound`
("user not found or wrong key"); both lookup miss and key mismatch map
to this one value. -/
inductive AuthError
  | userNotFound
deriving DecidableEq, Repr

/-- The store-level no-rows sentinel `pgx.ErrNoRows`. -/
inductive StoreError
  | noRows
deriving DecidableEq, Repr

/-- SQL three-valued AND (Kleene logic): NULL is `none`. -/
def sqlAnd : Option Bool → Option Bool → Option Bool
  | some false, _ => some false
  | _, some false => some false
  | some true, some true => some true
  | _, _ => none

/-- SQL COALESCE with a boolean default. -/
def coalesce (x : Option Bool) (d : Bool) : Bool := x.getD d

/-- The column selector passed to `findChannel`: `name` or `ftl_id`. -/
inductive FindColumn
  | name
  | ftl_id
deriving DecidableEq, Repr

/-- The WHERE clause of `findChannel`: exact equality on the selected column. -/
def columnMatches (c : FindColumn) (v : String) (row : ChannelDefRow) : Bool :=
  match c with
  | .name => row.name == v
  | .ftl_id => row.ftl_id == some v

/-- The joined announce flag of `findChannel`:
`COALESCE(channel_defs.announce AND users.announce, false)` over the
LEFT JOIN with `users` on `user_id` (a missing users row contributes NULL). -/
def effectiveAnnounce (db : DB) (row : ChannelDefRow) : Bool :=
  coalesce (sqlAnd (some row.announce)
    ((db.users.find? (fun u => u.user_id == row.user_id)).map (fun u => u.announce))) false

/-- Go `findChannel(column, value)`: SELECT user_id, name, key and the
coalesced joined announce flag from `channel_defs` LEFT JOIN `users`
WHERE column = value; `none` models `pgx.ErrNoRows`. -/
def findChannel (db : DB) (column : FindColumn) (value : String) :
    Option (channelAuth × String) :=
  match db.channel_defs.find? (columnMatches column value) with
  | none => none
  | some row =>
      some ({ UserID := row.user_id, Name := row.name,
              Announce := effectiveAnnounce db row }, row.key)

/-- Go `hmac.Equal`: constant-time comparison of two byte slices;
semantically, equality of the sequences. -/
def hmacEqual {α : Type} [BEq α] (a b : List α) : Bool := a == b

/-- Result of an ingest verification together with a count of how many
`hmac.Equal` comparisons the executed path performed (the control flow is
otherwise exactly that of the Go code). -/
structure VerifyOutcome where
  result : Except AuthError channelAuth
  comparisons : Nat
deriving Repr

/-- Go `verifyRTMP`: resolve the channel by name (the base of the URL
path); on `ErrNoRows` return `ErrUserNotFound` (no comparison performed);
otherwise compare the `key` query parameter with the stored key using
`hmac.Equal`, and on mismatch return `ErrUserNotFound`. -/
def verifyRTMP (db : DB) (pathBase : String) (key : String) : VerifyOutcome :=
  match findChannel db .name pathBase with
  | none => { result := .error .userNotFound, comparisons := 0 }
  | some (auth, expectKey) =>
      if !(hmacEqual key.data expectKey.data) then
        { result := .error .userNotFound, comparisons := 1 }
      else
        { result := .ok auth, comparisons := 1 }

/-- Go `[]byte(s)` of a string, as the list of its character codes. -/
def strBytes (s : String) : List Nat := s.data.map Char.toNat

/-- Go `verifyFTL`: resolve the channel by `ftl_id`; on `ErrNoRows`
return `ErrUserNotFound` (no comparison performed); otherwise compute
`HMAC-SHA512(key = stored key, message = nonce)` (the HMAC primitive is
the external `crypto/hmac`+`crypto/sha512` and is passed in as a
function) and compare it with the provided digest using `hmac.Equal`;
on mismatch log and return `ErrUserNotFound`. -/
def verifyFTL (hmacSHA512 : List Nat → List Nat → List Nat) (db : DB)
    (channelID : String) (nonce hmacProvided : List Nat) : VerifyOutcome :=
  match findChannel db .ftl_id channelID with
  | none => { result := .error .userNotFound, comparisons := 0 }
  | some (auth, key) =>
      let expected := hmacSHA512 (strBytes key) nonce
      if !(hmacEqual expected hmacProvided) then
        { result := .error .userNotFound, comparisons := 1 }
      else
        { result := .ok auth, comparisons := 1 }

/-- Row predicate of `updateChannel`/`deleteChannel`:
`user_id = $userID AND name = $name`. -/
def rowMatchesOwnerName (userID name : String) (r : ChannelDefRow) : Bool :=
  r.user_id == userID && r.name == name

/-- Go `updateChannel`: UPDATE `announce` on the rows matching
(user_id, name); if no row was affected return `pgx.ErrNoRows`,
otherwise return the updated database. -/
def updateChannel (db : DB) (userID name : String) (announce : Bool) :
    Except StoreError DB :=
  let affected := db.channel_defs.countP (rowMatchesOwnerName userID name)
  let updated := db.channel_defs.map (fun r =>
    if rowMatchesOwnerName userID name r then { r with announce := announce } else r)
  if affected == 0 then .error .noRows
  else .ok { db with channel_defs := updated }

/-- Go `deleteChannel`: DELETE the rows matching (user_id, name) and
return whatever error the store reports; the affected-row count is not
inspected, so a delete of a non-existent row succeeds. -/
def deleteChannel (db : DB) (userID name : String) : Except StoreError DB :=
  .ok { db with channel_defs :=
          db.channel_defs.filter (fun r => !(rowMatchesOwnerName userID name r)) }

/-- An OAuth2 access token, as returned by the provider. -/
structure OAuthToken where
  accessToken : String
deriving DecidableEq, Repr

/-- The errors of `tokenExchange`: missing `code` form value, unseal
failure of the CSRF state cookie (the code returns the unseal error
itself), explicit "state mismatch", or a failed upstream exchange. -/
inductive TokenExchangeError
  | missingCode
  | unsealFailure
  | stateMismatch
  | exchangeFailure
deriving DecidableEq, Repr

/-- The result of `tokenExchange` together with its observable side
effects: whether the CSRF state cookie was cleared server-side and
whether the upstream `oauth.Exchange` network call was made. -/
structure TokenExchangeOutcome where
  result : Except TokenExchangeError OAuthToken
  stateCookieCleared : Bool
  exchangeAttempted : Bool
deriving Repr

/-- Go `(*Server).tokenExchange`: if the `code` form value is empty,
fail with missing-code (returning before touching the state cookie);
otherwise read `state`, unseal the state cookie (outcome passed in,
since the sealer is external; `none` is an unseal error or absent
cookie), clear the state cookie, then fail on unseal error, fail on a
non-equal (`hmac.Equal`) unsealed value, and only then call
`oauth.Exchange` (its outcome passed in). -/
def tokenExchange (code state : String) (unsealedState : Option String)
    (exchangeResult : Except Unit OAuthToken) : TokenExchangeOutcome :=
  if code == "" then
    { result := .error .missingCode, stateCookieCleared := false,
      exchangeAttempted := false }
  else
    match unsealedState with
    | none =>
        { result := .error .unsealFailure, stateCookieCleared := true,
          exchangeAttempted := false }
    | some state2 =>
        if !(hmacEqual state2.data state.data) then
          { result := .error .stateMismatch, stateCookieCleared := true,
            exchangeAttempted := false }
        else
          { result := match exchangeResult with
                      | .ok t => .ok t
                      | .error _ => .error .exchangeFailure,
            stateCookieCleared := true, exchangeAttempted := true }

/-- The session cookie payload `discordUser`; its field names follow the
spec's session identity `\x7bid, username, discriminator, avatar\x7d`
(the struct declaration itself is outside the given sources). -/
structure discordUser where
  ID : String := ""
  Username : String := ""
  Discriminator : String := ""
  Avatar : String := ""
deriving DecidableEq, Repr

/-- The empty (anonymous) identity `discordUser\x7b\x7d`. -/
def emptyDiscordUser : discordUser := {}

/-- Go `(*Server).viewUser`: unseal the login cookie into `info`; on any
unseal error replace `info` by the zero value; then, if `info.Avatar` is
non-empty, rewrite it to the avatar path; the resulting value is written
as the JSON response. -/
def viewUser (unsealedLogin : Option discordUser) : discordUser :=
  let info := match unsealedLogin with
              | some u => u
              | none => emptyDiscordUser
  if info.Avatar ≠ "" then
    { info with Avatar := "/avatars/" ++ info.ID ++ "/" ++ info.Avatar ++ ".png" }
  else info

/-- Go `(*Server).viewOauthLogout`: clear the login cookie (set it with
negative max-age, modelled as `none`) and write the body `"\x7b\x7d"`. -/
def viewOauthLogout (_loginCookie : Option String) : Option String × String :=
  (none, "\x7b\x7d")

/-- An identity read: the login cookie (a sealed blob, `none` if absent)
is unsealed by the external sealer `unsealFn` and passed to `viewUser`. -/
def readIdentity (loginCookie : Option String)
    (unsealFn : String → Option discordUser) : discordUser :=
  viewUser (loginCookie.bind unsealFn)

/-- Go struct `channelInfo` as populated by `listChannels`: name and the
last-update time in milliseconds; the remaining fields keep their zero
values there. -/
structure channelInfo where
  Name : String
  Live : Bool := false
  Last : Nat := 0
  Thumb : String := ""
  LiveURL : String := ""
deriving DecidableEq, Repr

/-- The primary sort key of `listChannels`:
`greatest(now() - updated, '1 minute'::interval)` in seconds (a future
`updated` gives a non-positive interval, hence the one-minute floor, which
truncated Nat subtraction reproduces). -/
def staleKey (now : Nat) (r : ThumbRow) : Nat := max (now - r.updated) 60

/-- The ORDER BY relation of `listChannels`: primary key `staleKey`
ascending, secondary key `name` (select-column 1) ascending. -/
def thumbLE (now : Nat) (a b : ThumbRow) : Prop :=
  staleKey now a < staleKey now b ∨
    (staleKey now a = staleKey now b ∧ a.name ≤ b.name)

/-- The string order on names decided through the character lists (the
iterator-based decision procedure of `String` does not reduce in the
kernel; the list one does, and the orders agree). -/
def nameLEDecidable (a b : String) : Decidable (a ≤ b) :=
  decidable_of_iff (¬ b.data < a.data)
    (Iff.symm (not_congr String.lt_iff_toList_lt))

instance thumbLEDecidable (now : Nat) : DecidableRel (thumbLE now) := fun a b =>
  @instDecidableOr _ _ _
    (@instDecidableAnd _ _ _ (nameLEDecidable a.name b.name))

instance thumbLETotal (now : Nat) : IsTotal ThumbRow (thumbLE now) where
  total a b := by
    unfold thumbLE
    rcases Nat.lt_trichotomy (staleKey now a) (staleKey now b) with h | h | h
    · exact Or.inl (Or.inl h)
    · rcases le_total a.name b.name with hn | hn
      · exact Or.inl (Or.inr ⟨h, hn⟩)
      · exact Or.inr (Or.inr ⟨h.symm, hn⟩)
    · exact Or.inr (Or.inl h)

instance thumbLETrans (now : Nat) : IsTrans ThumbRow (thumbLE now) where
  trans a b c hab hbc := by
    unfold thumbLE at *
    rcases hab with hab | ⟨hab, hab'⟩ <;> rcases hbc with hbc | ⟨hbc, hbc'⟩
    · exact Or.inl (hab.trans hbc)
    · exact Or.inl (hbc ▸ hab)
    · exact Or.inl (hab ▸ hbc)
    · exact Or.inr ⟨hab.trans hbc, le_trans hab' hbc'⟩

/-- The projection of `listChannels`: each thumbs row becomes a
`channelInfo` with `Last = updated` in milliseconds
(`UnixNano() / 1000000`, i.e. seconds times 1000). -/
def thumbInfo (t : ThumbRow) : channelInfo :=
  { Name := t.name, Last := t.updated * 1000 }

/-- Go `listChannels`: SELECT name, updated FROM thumbs ORDER BY
`greatest(now() - updated, '1 minute')` ASC, name ASC; the ordered rows
are modelled by sorting the table with the ORDER BY relation. -/
def listChannels (now : Nat) (db : DB) : List channelInfo :=
  (List.insertionSort (thumbLE now) db.thumbs).map thumbInfo

/-- The ORDER BY relation restated on the output rows (the `updated`
seconds are `Last / 1000`). -/
def infoLE (now : Nat) (a b : channelInfo) : Prop :=
  max (now - a.Last / 1000) 60 < max (now - b.Last / 1000) 60 ∨
    (max (now - a.Last / 1000) 60 = max (now - b.Last / 1000) 60 ∧
      a.Name ≤ b.Name)

/-! ## Helper lemmas and theorems for the claims -/

/-- `name` is globally unique across channel rows (the database UNIQUE
constraint assumed by the spec's data-model invariant). -/
def namesUnique (db : DB) : Prop :=
  db.channel_defs.Pairwise (fun a b => a.name ≠ b.name)

/-- A present `ftl_id` is unique across channel rows. -/
def ftlUnique (db : DB) : Prop :=
  db.channel_defs.Pairwise
    (fun a b => ∀ v : String, a.ftl_id = some v → b.ftl_id ≠ some v)

/-- `find?` returns the member satisfying `p` when no two members both
satisfy `p`. -/
theorem find?_eq_some_of_unique {α : Type} (p : α → Bool) :
    ∀ (l : List α) (a : α), a ∈ l → p a = true →
      l.Pairwise (fun x y => p x = true → p y = true → False) →
      l.find? p = some a
  | [], a, ha, _, _ => absurd ha (List.not_mem_nil a)
  | b :: t, a, ha, hpa, huniq => by
    rcases List.pairwise_cons.mp huniq with ⟨hb, ht⟩
    rcases List.mem_cons.mp ha with h | h
    · subst h
      exact List.find?_cons_of_pos _ hpa
    · by_cases hpb : p b = true
      · exact absurd hpa (fun hpa2 => hb a h hpb hpa2)
      · rw [List.find?_cons_of_neg _ (by simpa using hpb)]
        exact find?_eq_some_of_unique p t a h hpa ht

/-- `findChannel` by name hits exactly the member row with that name. -/
theorem findChannel_name_eq (db : DB) (row : ChannelDefRow) (value : String)
    (hm : row ∈ db.channel_defs) (hname : row.name = value)
    (hu : namesUnique db) :
    findChannel db .name value =
      some ({ UserID := row.user_id, Name := row.name,
              Announce := effectiveAnnounce db row }, row.key) := by
  have hfind : db.channel_defs.find? (columnMatches .name value) = some row := by
    apply find?_eq_some_of_unique
    · exact hm
    · simp [columnMatches, hname]
    · refine hu.imp ?_
      intro a b hab hpa hpb
      simp [columnMatches] at hpa hpb
      exact hab (hpa.trans hpb.symm)
  rw [findChannel, hfind]

/-- `findChannel` by ftl_id hits exactly the member row with that ftl_id. -/
theorem findChannel_ftl_eq (db : DB) (row : ChannelDefRow) (value : String)
    (hm : row ∈ db.channel_defs) (hftl : row.ftl_id = some value)
    (hu : ftlUnique db) :
    findChannel db .ftl_id value =
      some ({ UserID := row.user_id, Name := row.name,
              Announce := effectiveAnnounce db row }, row.key) := by
  have hfind : db.channel_defs.find? (columnMatches .ftl_id value) = some row := by
    apply find?_eq_some_of_unique
    · exact hm
    · simp [columnMatches, hftl]
    · refine hu.imp ?_
      intro a b hab hpa hpb
      simp [columnMatches] at hpa hpb
      exact hab value hpa hpb
  rw [findChannel, hfind]

/-- `findChannel` misses when no member row matches the column. -/
theorem findChannel_eq_none (db : DB) (column : FindColumn) (value : String)
    (h : ∀ row ∈ db.channel_defs, columnMatches column value row = false) :
    findChannel db column value = none := by
  have hfind : db.channel_defs.find? (columnMatches column value) = none :=
    List.find?_eq_none.mpr (by intro a ha; simp [h a ha])
  rw [findChannel, hfind]

/-- A one-channel, one-owner database used as a concrete witness input. -/
def dbW : DB :=
  { channel_defs := [{ user_id := "u1", name := "chan", key := "secret",
                       ftl_id := some "f1", announce := true }],
    users := [{ user_id := "u1", announce := true }],
    thumbs := [] }

/-- Claim C1: for every RTMP ingest authentication request, if a channel
with the given name exists and the provided key equals its stored secret,
`verifyRTMP` succeeds and returns the channel authorization; if no
channel with that name exists, or the provided key differs from the
stored secret, it fails with the one identical `ErrUserNotFound` error
in both cases. -/
theorem verifyRTMP_authentication (db : DB) (name key : String)
    (hu : namesUnique db) :
    (∀ row ∈ db.channel_defs, row.name = name → key = row.key →
       (verifyRTMP db name key).result =
         .ok { UserID := row.user_id, Name := row.name,
               Announce := effectiveAnnounce db row }) ∧
    ((∀ row ∈ db.channel_defs, row.name ≠ name) →
       (verifyRTMP db name key).result = .error .userNotFound) ∧
    (∀ row ∈ db.channel_defs, row.name = name → key ≠ row.key →
       (verifyRTMP db name key).result = .error .userNotFound) := by
  refine ⟨?_, ?_, ?_⟩
  · intro row hm hname hkey
    rw [verifyRTMP, findChannel_name_eq db row name hm hname hu]
    subst hkey
    simp [hmacEqual]
  · intro hnone
    rw [verifyRTMP, findChannel_eq_none db .name name ?_]
    intro row hm
    simp [columnMatches]
    exact hnone row hm
  · intro row hm hname hkey
    rw [verifyRTMP, findChannel_name_eq db row name hm hname hu]
    have hne : hmacEqual key.data row.key.data = false := by
      simp only [hmacEqual, beq_eq_false_iff_ne, ne_eq]
      intro h
      exact hkey (by ext1; exact h)
    simp [hne]

/-- Witness for C1 at a concrete database, channel name, and key. -/
theorem verifyRTMP_authentication_witness :
    (verifyRTMP dbW "chan" "secret").result =
      .ok { UserID := "u1", Name := "chan", Announce := true } := by
  have h := (verifyRTMP_authentication dbW "chan" "secret"
      (by simp [namesUnique, dbW])).1
      { user_id := "u1", name := "chan", key := "secret",
        ftl_id := some "f1", announce := true }
      (by simp [dbW]) rfl rfl
  simpa [dbW, effectiveAnnounce, sqlAnd, coalesce] using h

/-- Claim C2 counterexample: on a lookup miss (empty database) the RTMP
path performs zero `hmac.Equal` comparisons, so the code does
short-circuit on lookup failure rather than performing a dummy
comparison; the request still fails with `ErrUserNotFound`. -/
theorem verify_shortCircuit_counterexample :
    (verifyRTMP (DB.mk [] [] []) "chan" "key").comparisons = 0 ∧
    (verifyRTMP (DB.mk [] [] []) "chan" "key").result = .error .userNotFound := by
  decide

/-- Claim C2 (amended): for both ingest protocols the secret comparison
is performed exactly when the channel lookup succeeds; on a lookup miss
the code short-circuits, performing no comparison and returning
`ErrUserNotFound` directly. -/
theorem verify_comparison_iff_lookup (db : DB) (name key : String)
    (H : List Nat → List Nat → List Nat) (channelID : String)
    (nonce dig : List Nat) :
    (verifyRTMP db name key).comparisons =
      (if (findChannel db .name name).isSome then 1 else 0) ∧
    (verifyFTL H db channelID nonce dig).comparisons =
      (if (findChannel db .ftl_id channelID).isSome then 1 else 0) ∧
    (findChannel db .name name = none →
      (verifyRTMP db name key).result = .error .userNotFound) ∧
    (findChannel db .ftl_id channelID = none →
      (verifyFTL H db channelID nonce dig).result = .error .userNotFound) := by
  refine ⟨?_, ?_, ?_, ?_⟩
  · rcases h : findChannel db .name name with _ | ⟨auth, k⟩
    · simp [verifyRTMP, h]
    · cases hq : hmacEqual key.data k.data <;> simp [verifyRTMP, h, hq]
  · rcases h : findChannel db .ftl_id channelID with _ | ⟨auth, k⟩
    · simp [verifyFTL, h]
    · cases hq : hmacEqual (H (strBytes k) nonce) dig <;>
        simp [verifyFTL, h, hq]
  · intro h
    simp [verifyRTMP, h]
  · intro h
    simp [verifyFTL, h]

/-- Witness for the amended C2 at a concrete (empty) database: the
lookup-miss hypothesis is discharged and the identical error observed. -/
theorem verify_comparison_iff_lookup_witness :
    (verifyRTMP (DB.mk [] [] []) "chan" "key").result = .error .userNotFound :=
  (verify_comparison_iff_lookup (DB.mk [] [] []) "chan" "key"
      (fun k n => k ++ n) "f" [] []).2.2.1 (by decide)

/-- Claim C3: for every OAuth callback carrying a code, if unsealing the
CSRF state cookie fails or the unsealed value differs (under the
constant-time `hmac.Equal`) from the received state parameter, the
callback aborts with an error before the token exchange is attempted;
conversely the exchange is only ever attempted after the comparison
succeeded on an unsealed value. -/
theorem tokenExchange_csrf_precedes_exchange (code state : String)
    (us : Option String) (ex : Except Unit OAuthToken)
    (hcode : code ≠ "")
    (hbad : us = none ∨
      ∃ s2, us = some s2 ∧ hmacEqual s2.data state.data = false) :
    (tokenExchange code state us ex).exchangeAttempted = false ∧
    (∃ e, (tokenExchange code state us ex).result = .error e ∧
       (e = .unsealFailure ∨ e = .stateMismatch)) ∧
    (∀ (c s : String) (us2 : Option String) (ex2 : Except Unit OAuthToken),
      (tokenExchange c s us2 ex2).exchangeAttempted = true →
      ∃ s2, us2 = some s2 ∧ hmacEqual s2.data s.data = true) := by
  have hc : (code == "") = false := by simpa using hcode
  refine ⟨?_, ?_, ?_⟩
  · rcases hbad with h | ⟨s2, h, hne⟩ <;> subst h <;>
      simp [tokenExchange, hc, *]
  · rcases hbad with h | ⟨s2, h, hne⟩ <;> subst h
    · exact ⟨.unsealFailure, by simp [tokenExchange, hc], Or.inl rfl⟩
    · exact ⟨.stateMismatch, by simp [tokenExchange, hc, hne], Or.inr rfl⟩
  · intro c s us2 ex2 hatt
    by_cases hc2 : (c == "") = true
    · simp [tokenExchange, hc2] at hatt
    · rcases us2 with _ | s2
      · simp [tokenExchange, hc2] at hatt
      · refine ⟨s2, rfl, ?_⟩
        cases hq : hmacEqual s2.data s.data
        · simp [tokenExchange, hc2, hq] at hatt
        · rfl

/-- Witness for C3 at a concrete callback whose state cookie fails to
unseal: the exchange is not attempted. -/
theorem tokenExchange_csrf_precedes_exchange_witness :
    (tokenExchange "x" "s" none (.ok { accessToken := "t" })).exchangeAttempted
      = false :=
  (tokenExchange_csrf_precedes_exchange "x" "s" none
      (.ok { accessToken := "t" }) (by decide) (Or.inl rfl)).1

/-- Claim C4 counterexample: on a callback with a missing `code`, the
function returns `missing code` before touching the state cookie, so the
sealed CSRF state cookie is not cleared, contradicting "cleared
regardless of the outcome (… or missing code)". -/
theorem tokenExchange_missingCode_cookie_counterexample :
    (tokenExchange "" "s" (some "s")
        (.ok { accessToken := "t" })).result = .error .missingCode ∧
    (tokenExchange "" "s" (some "s")
        (.ok { accessToken := "t" })).stateCookieCleared = false := by
  decide

/-- Claim C4 (amended): a missing code parameter fails with MissingCode
and returns before the cookie logic, leaving the state cookie untouched;
on every callback that passes the missing-code check (success, unseal
failure, or state mismatch) the sealed CSRF state cookie is cleared
server-side, making the state token single-use on those paths. -/
theorem tokenExchange_cookie_clearing (code state : String)
    (us : Option String) (ex : Except Unit OAuthToken) :
    (code = "" →
       (tokenExchange code state us ex).result = .error .missingCode ∧
       (tokenExchange code state us ex).stateCookieCleared = false ∧
       (tokenExchange code state us ex).exchangeAttempted = false) ∧
    (code ≠ "" → (tokenExchange code state us ex).stateCookieCleared = true) := by
  constructor
  · intro h
    subst h
    simp [tokenExchange]
  · intro h
    have hc : (code == "") = false := by simpa using h
    rcases us with _ | s2
    · simp [tokenExchange, hc]
    · cases hq : hmacEqual s2.data state.data <;>
        simp [tokenExchange, hc, hq]

/-- Witness for the amended C4 at concrete callbacks with and without a
code parameter. -/
theorem tokenExchange_cookie_clearing_witness :
    (tokenExchange "" "s" none
        (.ok { accessToken := "t" })).result = .error .missingCode ∧
    (tokenExchange "x" "s" none
        (.ok { accessToken := "t" })).stateCookieCleared = true :=
  ⟨((tokenExchange_cookie_clearing "" "s" none
        (.ok { accessToken := "t" })).1 rfl).1,
   (tokenExchange_cookie_clearing "x" "s" none
        (.ok { accessToken := "t" })).2 (by decide)⟩

/-- Claim C5: for every FTL ingest authentication, if a channel with the
given ftl_id exists and the provided digest equals HMAC-SHA512 keyed by
the channel's secret over the nonce, `verifyFTL` succeeds and returns
the channel authorization; any difference in the digest causes failure
with `ErrUserNotFound` (as does a lookup miss), the comparison being
`hmac.Equal`. -/
theorem verifyFTL_authentication (H : List Nat → List Nat → List Nat)
    (db : DB) (channelID : String) (nonce dig : List Nat)
    (hu : ftlUnique db) :
    (∀ row ∈ db.channel_defs, row.ftl_id = some channelID →
       (dig = H (strBytes row.key) nonce →
         (verifyFTL H db channelID nonce dig).result =
           .ok { UserID := row.user_id, Name := row.name,
                 Announce := effectiveAnnounce db row }) ∧
       (dig ≠ H (strBytes row.key) nonce →
         (verifyFTL H db channelID nonce dig).result = .error .userNotFound)) ∧
    ((∀ row ∈ db.channel_defs, row.ftl_id ≠ some channelID) →
       (verifyFTL H db channelID nonce dig).result = .error .userNotFound) := by
  constructor
  · intro row hm hftl
    constructor
    · intro hdig
      rw [verifyFTL, findChannel_ftl_eq db row channelID hm hftl hu]
      subst hdig
      simp [hmacEqual]
    · intro hdig
      rw [verifyFTL, findChannel_ftl_eq db row channelID hm hftl hu]
      have hne : hmacEqual (H (strBytes row.key) nonce) dig = false := by
        simp only [hmacEqual, beq_eq_false_iff_ne, ne_eq]
        intro h
        exact hdig h.symm
      simp [hne]
  · intro hnone
    rw [verifyFTL, findChannel_eq_none db .ftl_id channelID ?_]
    intro row hm
    simp [columnMatches]
    exact hnone row hm

/-- Witness for C5: with a concrete HMAC function, database, nonce and
the matching digest, authentication succeeds with the authorization. -/
theorem verifyFTL_authentication_witness :
    (verifyFTL (fun k n => k ++ n) dbW "f1" [7]
        (strBytes "secret" ++ [7])).result =
      .ok { UserID := "u1", Name := "chan", Announce := true } := by
  have h := ((verifyFTL_authentication (fun k n => k ++ n) dbW "f1" [7]
      (strBytes "secret" ++ [7]) (by simp [ftlUnique, dbW])).1
      { user_id := "u1", name := "chan", key := "secret",
        ftl_id := some "f1", announce := true }
      (by simp [dbW]) rfl).1 rfl
  simpa [dbW, effectiveAnnounce, sqlAnd, coalesce] using h

/-- The concrete row and database (owner announce flag false) used as
the C6 witness input. -/
def rowW2 : ChannelDefRow :=
  { user_id := "u1", name := "chan", key := "secret",
    ftl_id := none, announce := true }

/-- Database for the C6 witness: channel announce true, owner announce
false. -/
def dbW2 : DB :=
  { channel_defs := [rowW2],
    users := [{ user_id := "u1", announce := false }],
    thumbs := [] }

/-- Claim C6: for every combined channel lookup that finds a channel row
and an owner row, the effective announce flag inside the returned
authorization equals the conjunction of the channel-level and
owner-level announce flags, and the joined `COALESCE(a AND b, false)`
equals `a && b` for all four boolean combinations. -/
theorem effectiveAnnounce_conjunction (db : DB) (column : FindColumn)
    (value : String) (auth : channelAuth) (k : String)
    (row : ChannelDefRow) (u : UserRow)
    (hrow : db.channel_defs.find? (columnMatches column value) = some row)
    (huser : db.users.find? (fun x => x.user_id == row.user_id) = some u)
    (hfind : findChannel db column value = some (auth, k)) :
    auth.Announce = (row.announce && u.announce) ∧
    (∀ a b : Bool, coalesce (sqlAnd (some a) (some b)) false = (a && b)) := by
  refine ⟨?_, by decide⟩
  rw [findChannel, hrow] at hfind
  injection hfind with h
  injection h with h1 h2
  subst h1
  show effectiveAnnounce db row = (row.announce && u.announce)
  rw [effectiveAnnounce, huser]
  simp only [Option.map_some']
  cases row.announce <;> cases u.announce <;> rfl

/-- Witness for C6 at a concrete database whose owner has announce
false: the authorization carries `true && false`. -/
theorem effectiveAnnounce_conjunction_witness :
    (channelAuth.mk "u1" "chan" false).Announce = (true && false) ∧
    (∀ a b : Bool, coalesce (sqlAnd (some a) (some b)) false = (a && b)) :=
  effectiveAnnounce_conjunction dbW2 .name "chan"
    (channelAuth.mk "u1" "chan" false) "secret" rowW2
    { user_id := "u1", announce := false }
    (by decide) (by decide) (by decide)

/-- The concrete row and database (no owner row) used as the C10
witness input. -/
def rowW3 : ChannelDefRow :=
  { user_id := "u9", name := "solo", key := "k9",
    ftl_id := none, announce := true }

/-- Database for the C10 witness: channel row present, no users row. -/
def dbW3 : DB := { channel_defs := [rowW3], users := [], thumbs := [] }

/-- Claim C10: for every combined channel lookup where the channel row
exists but the owner has no users row, the effective announce flag in
the returned authorization is false (the left join's NULL conjunction is
coalesced to false). -/
theorem effectiveAnnounce_missing_owner (db : DB) (column : FindColumn)
    (value : String) (auth : channelAuth) (k : String) (row : ChannelDefRow)
    (hrow : db.channel_defs.find? (columnMatches column value) = some row)
    (hnouser : db.users.find? (fun x => x.user_id == row.user_id) = none)
    (hfind : findChannel db column value = some (auth, k)) :
    auth.Announce = false := by
  rw [findChannel, hrow] at hfind
  injection hfind with h
  injection h with h1 h2
  subst h1
  show effectiveAnnounce db row = false
  rw [effectiveAnnounce, hnouser]
  cases row.announce <;> rfl

/-- Witness for C10 at a concrete database with no owner-preference
row: the authorization's announce flag is false despite the channel
flag being true. -/
theorem effectiveAnnounce_missing_owner_witness :
    (channelAuth.mk "u9" "solo" false).Announce = false :=
  effectiveAnnounce_missing_owner dbW3 .name "solo"
    (channelAuth.mk "u9" "solo" false) "k9" rowW3
    (by decide) (by decide) (by decide)

/-- The `Last` field of a projected row recovers `updated` seconds. -/
theorem thumbInfo_last_div (t : ThumbRow) : (thumbInfo t).Last / 1000 = t.updated := by
  simp only [thumbInfo]
  omega

/-- Claim C7: `listChannels` returns the liveness rows ordered primarily
by `max(now - updated, 1 minute)` ascending and secondarily by name
ascending (it is a sorted permutation of the projected table); in
particular channels updated 10s, 70s and 200s ago appear in that order
regardless of name, and two channels both updated within the last
minute are tie-broken alphabetically by name. -/
theorem listChannels_ordering (now : Nat) (db : DB) :
    (listChannels now db).Sorted (infoLE now) ∧
    (listChannels now db).Perm (db.thumbs.map thumbInfo) ∧
    (listChannels 1000 (DB.mk [] []
        [⟨"z", [], 990⟩, ⟨"a", [], 930⟩, ⟨"m", [], 800⟩])).map
        channelInfo.Name = ["z", "a", "m"] ∧
    (listChannels 1000 (DB.mk [] []
        [⟨"d", [], 995⟩, ⟨"a", [], 995⟩])).map
        channelInfo.Name = ["a", "d"] := by
  refine ⟨?_, ?_, by decide, by decide⟩
  · have hs := List.sorted_insertionSort (thumbLE now) db.thumbs
    have key : ∀ t : ThumbRow,
        max (now - (thumbInfo t).Last / 1000) 60 = staleKey now t := by
      intro t
      rw [thumbInfo_last_div]
      rfl
    show List.Pairwise (infoLE now)
      ((List.insertionSort (thumbLE now) db.thumbs).map thumbInfo)
    rw [List.pairwise_map]
    refine hs.imp ?_
    intro a b hab
    rw [infoLE, key a, key b]
    exact hab
  · exact (List.perm_insertionSort (thumbLE now) db.thumbs).map thumbInfo

/-- Claim C8 counterexample: deleting a channel row that does not exist
(empty database) succeeds rather than failing with the no-rows
NotFound error, because `deleteChannel` never inspects the
affected-row count. -/
theorem deleteChannel_missing_row_counterexample :
    deleteChannel (DB.mk [] [] []) "owner" "chan" = .ok (DB.mk [] [] []) := by
  decide

/-- Claim C8 (amended): the update-announce-flag operation fails with
the no-rows NotFound error when it targets a row that does not exist,
and sets the announce flag and succeeds when the targeted row exists;
the delete-channel operation succeeds whether or not the targeted row
exists, removing the matching rows. -/
theorem updateDelete_row_targeting (db : DB) (userID name : String)
    (ann : Bool) :
    (db.channel_defs.countP (rowMatchesOwnerName userID name) = 0 →
       updateChannel db userID name ann = .error .noRows) ∧
    (db.channel_defs.countP (rowMatchesOwnerName userID name) ≠ 0 →
       ∃ db2, updateChannel db userID name ann = .ok db2 ∧
         ∀ r ∈ db2.channel_defs, rowMatchesOwnerName userID name r = true →
           r.announce = ann) ∧
    deleteChannel db userID name =
      .ok { db with channel_defs := db.channel_defs.filter (fun r =>
              !(rowMatchesOwnerName userID name r)) } := by
  refine ⟨?_, ?_, rfl⟩
  · intro h
    rw [updateChannel]
    simp [h]
  · intro h
    have hc : (db.channel_defs.countP (rowMatchesOwnerName userID name) == 0)
        = false := by simpa using h
    refine ⟨{ db with channel_defs := db.channel_defs.map (fun r =>
        if rowMatchesOwnerName userID name r then { r with announce := ann }
        else r) }, ?_, ?_⟩
    · rw [updateChannel]
      simp [hc]
    · intro r hr hmatch
      obtain ⟨r0, hr0, hfr⟩ := List.mem_map.mp hr
      by_cases hm : rowMatchesOwnerName userID name r0 = true
      · rw [← hfr]
        simp [hm]
      · rw [← hfr] at hmatch
        simp [hm] at hmatch

/-- Witness for the amended C8: updating a missing row fails with the
no-rows error, and updating an existing row yields a database whose
matching row carries the new flag. -/
theorem updateDelete_row_targeting_witness :
    updateChannel (DB.mk [] [] []) "u" "c" true = .error .noRows ∧
    ∃ db2, updateChannel dbW "u1" "chan" false = .ok db2 ∧
      ∀ r ∈ db2.channel_defs, rowMatchesOwnerName "u1" "chan" r = true →
        r.announce = false :=
  ⟨(updateDelete_row_targeting (DB.mk [] [] []) "u" "c" true).1 (by decide),
   (updateDelete_row_targeting dbW "u1" "chan" false).2.1 (by decide)⟩

/-- Claim C9: for every identity-read request whose session cookie is
absent or fails to unseal, the result is the empty anonymous identity
(not an error); logout clears the session cookie and returns the empty
payload, so a logout followed by an identity read returns the anonymous
identity under any sealer. -/
theorem identity_read_anonymous (cookie : Option String)
    (unsealFn : String → Option discordUser) :
    (∀ c : Option String, c.bind unsealFn = none →
       readIdentity c unsealFn = emptyDiscordUser) ∧
    readIdentity (viewOauthLogout cookie).1 unsealFn = emptyDiscordUser ∧
    (viewOauthLogout cookie).2 = "\x7b\x7d" := by
  refine ⟨?_, rfl, rfl⟩
  intro c hc
  rw [readIdentity, hc]
  rfl

/-- Witness for C9 at the absent cookie and a sealer that always
fails. -/
theorem identity_read_anonymous_witness :
    readIdentity none (fun _ => none) = emptyDiscordUser :=
  (identity_read_anonymous none (fun _ => none)).1 none rfl

end Gunk
